import Mathlib

/-!
Verification of the TinyDB TypeScript client SDK (src/index.ts) against its
natural-language specification. The SDK's request execution and resilience
layer is shallowly embedded: JavaScript runtime values are modelled by the
inductive `JsValue`, platform primitives that the SDK merely calls
(JSON.parse, JSON.stringify with the undefined-dropping replacer,
encodeURIComponent) are oracle functions bundled in `Platform`, the HTTP
transport is an oracle `Transport` indexed by the number of fetches already
issued, and the client's only mutable state (the offline queue) plus the
trace of issued fetches are passed explicitly.
-/

namespace TinySdk

/-- Model of a JavaScript runtime value. `jnan` is the number NaN (typeof
"number" but not equal to any `jnum`); `jarr` keeps the element list apart
from named (non-index) properties so that property reads/writes on arrays,
which the SDK performs on decoded document data, are representable. -/
inductive JsValue where
  | jnull
  | jundefined
  | jbool (b : Bool)
  | jnum (n : Int)
  | jnan
  | jstr (s : String)
  | jarr (elems : List JsValue) (props : List (String × JsValue))
  | jobj (fields : List (String × JsValue))

/-- JavaScript truthiness of a value. -/
def truthy : JsValue → Bool
  | .jnull => false
  | .jundefined => false
  | .jbool b => b
  | .jnum n => n != 0
  | .jnan => false
  | .jstr s => s != ""
  | .jarr _ _ => true
  | .jobj _ => true

/-- Whether `typeof v === "object"` holds (true for objects, arrays and null). -/
def isObjectType : JsValue → Bool
  | .jnull => true
  | .jarr _ _ => true
  | .jobj _ => true
  | _ => false

/-- Whether the value is an object or an array (property reads and writes land
on it). -/
def isObjOrArr : JsValue → Bool
  | .jarr _ _ => true
  | .jobj _ => true
  | _ => false

/-- Whether the value is null or undefined (the two nullish values, as tested
by the ?? operator and optional chaining). -/
def nullish : JsValue → Bool
  | .jnull => true
  | .jundefined => true
  | _ => false

/-- First binding of a key in a field list (JS object property lookup). -/
def lookupField : List (String × JsValue) → String → Option JsValue
  | [], _ => none
  | (k, v) :: rest, key => if k = key then some v else lookupField rest key

/-- Property read `v[key]`: undefined when absent or when the value holds no
properties. -/
def getProp (v : JsValue) (key : String) : JsValue :=
  match v with
  | .jobj fields => (lookupField fields key).getD .jundefined
  | .jarr _ props => (lookupField props key).getD .jundefined
  | _ => .jundefined

/-- Property write on a field list: replace in place, else append (JS keeps
the insertion position of an existing key). -/
def setField : List (String × JsValue) → String → JsValue → List (String × JsValue)
  | [], key, v => [(key, v)]
  | (k, w) :: rest, key, v =>
      if k = key then (key, v) :: rest else (k, w) :: setField rest key v

/-- Property assignment `o[key] = v`: a no-op on primitives (as in sloppy-mode
JS), a named-property write on arrays. -/
def setProp (o : JsValue) (key : String) (v : JsValue) : JsValue :=
  match o with
  | .jobj fields => .jobj (setField fields key v)
  | .jarr elems props => .jarr elems (setField props key v)
  | other => other

/-- String() coercion, exact on primitives; compound values are approximated
(the SDK only ever coerces strings in the paths verified here). -/
def jsToString : JsValue → String
  | .jstr s => s
  | .jnum n => toString n
  | .jnan => "NaN"
  | .jbool b => if b then "true" else "false"
  | .jnull => "null"
  | .jundefined => "undefined"
  | .jarr _ _ => ""
  | .jobj _ => "[object Object]"

/-- Platform primitives the SDK calls but does not define: JSON.parse (none
models a parse exception), JSON.stringify with the replacer that drops
undefined-valued keys, and encodeURIComponent. -/
structure Platform where
  jsonParse : String → Option JsValue
  stringifyDU : JsValue → String
  encodeURIComponent : String → String

/-- Wire envelope of a document, after the TS interface DocumentPayload:
`data` is declared `string | null` (none models null/absent, and the empty
string is falsy exactly like the code's `if (payload.data)` test); `version`
is kept as an arbitrary runtime value because payloads reach parseDocument
through unchecked casts and the code guards with `typeof`/`isNaN`. -/
structure DocumentPayload where
  id : String
  tenant_id : String
  collection_id : String
  key : String
  key_numeric : Option Int
  data : Option String
  version : JsValue
  created_at : String
  updated_at : String
  deleted_at : Option String

/-- Decoded document record, after the TS interface DocumentRecord. `data`
and `version` stay `JsValue` (the code stores whatever JS value resulted). -/
structure DocumentRecord where
  id : String
  tenant_id : String
  collection_id : String
  key : String
  key_numeric : Option Int
  data : JsValue
  version : JsValue
  created_at : String
  updated_at : String
  deleted_at : Option String

/-- The `data` value parseDocument works with before the id-mirroring step:
parse the data string when truthy (falling back to a raw-tagged object on a
parse exception), then replace any falsy or non-object result with an empty
object — the body of the code's two leading if statements. -/
def decodedData (pf : Platform) (p : DocumentPayload) : JsValue :=
  let data0 : JsValue :=
    match p.data with
    | some s =>
        if s ≠ "" then
          match pf.jsonParse s with
          | some v => v
          | none => .jobj [("_raw", .jstr s)]
        else .jobj []
    | none => .jobj []
  if truthy data0 && isObjectType data0 then data0 else .jobj []

/-- Embedding of parseDocument (src/index.ts lines 262-296). -/
def parseDocument (pf : Platform) (p : DocumentPayload) : DocumentRecord :=
  let data1 := decodedData pf p
  let docId : JsValue :=
    if nullish (getProp data1 "_doc_id") then .jstr p.id else getProp data1 "_doc_id"
  let data2 :=
    match docId with
    | .jstr s =>
        if s ≠ "" then setProp data1 "_doc_id" (.jstr s)
        else setProp data1 "_doc_id" (.jstr p.id)
    | _ => setProp data1 "_doc_id" (.jstr p.id)
  let version : JsValue :=
    match p.version with
    | .jnum n => .jnum n
    | _ => .jnum 1
  { id := p.id
    tenant_id := p.tenant_id
    collection_id := p.collection_id
    key := p.key
    key_numeric := p.key_numeric
    data := data2
    version := version
    created_at := p.created_at
    updated_at := p.updated_at
    deleted_at := p.deleted_at }

/-- Embedding of parseCollection (src/index.ts lines 247-260) over the wire
value: parse the schema_json field when truthy (JSON.parse coerces its
argument to a string, modelled by jsToString), fall back to a raw-tagged
object on a parse exception, and attach the result under the schema key.
The object spread of a non-object payload is approximated by a no-op; the
verified claims only exercise object payloads. -/
def parseCollection (pf : Platform) (payload : JsValue) : JsValue :=
  let sj := getProp payload "schema_json"
  let schema : JsValue :=
    if truthy sj then
      match pf.jsonParse (jsToString sj) with
      | some v => v
      | none => .jobj [("_raw", sj)]
    else .jundefined
  setProp payload "schema" schema

/-- Tag distinguishing the response parsers the SDK installs: jsonCodec is
the module-level jsonParser, voidCodec is the `async () => undefined`
parser used by delete and purge. -/
inductive CodecKind where
  | jsonCodec
  | voidCodec

/-- The method, headers and serialized body of a fetch call (RequestInit as
the SDK builds it; only JSON bodies arise in the verified paths, the
FormData/Blob pass-through is not exercised). -/
structure RequestInit where
  method : String
  headers : List (String × String)
  body : Option String

/-- A captured write operation in the offline queue (interface
QueuedOperation): the built URL, the request init, and the response parser. -/
structure QueuedOperation where
  url : String
  init : RequestInit
  codec : CodecKind

/-- An HTTP response as the transport delivers it: status, statusText and
the body text. -/
structure HttpResponse where
  status : Nat
  statusText : String
  body : String

/-- Response.ok: status in the inclusive range 200..299. -/
def HttpResponse.ok (r : HttpResponse) : Bool :=
  200 ≤ r.status && r.status ≤ 299

/-- A JavaScript error value, with the classes the SDK constructs or meets:
TypeError (what fetch rejects with on connectivity loss, and what property
access on undefined raises), a generic Error, TinyDBError (message, status,
code, details) and OfflineError (message and the captured operation). -/
inductive JsError where
  | typeError (message : String)
  | genericError (message : String)
  | tinyDBError (message : String) (status : Nat) (code : JsValue) (details : JsValue)
  | offlineError (message : String) (op : QueuedOperation)

/-- Lowercase mapping of one character, exact on ASCII letters (the
fragment of toLowerCase the SDK's comparisons exercise); other characters
pass through. -/
def lowerChar (c : Char) : Char :=
  if 'A' ≤ c && c ≤ 'Z' then Char.ofNat (c.toNat + 32) else c

/-- Model of String.prototype.toLowerCase, applied character by character. -/
def asciiLower (s : String) : String :=
  String.mk (s.toList.map lowerChar)

/-- Whether the candidate list occurs at the head of the haystack. -/
def leadsWith : List Char → List Char → Bool
  | _, [] => true
  | [], _ :: _ => false
  | c :: cs, p :: ps => c == p && leadsWith cs ps

/-- Whether the candidate list occurs contiguously anywhere in the haystack. -/
def containsSeq : List Char → List Char → Bool
  | [], pat => leadsWith [] pat
  | c :: cs, pat => leadsWith (c :: cs) pat || containsSeq cs pat

/-- The test of the regular expression /network|fetch failed|Failed to fetch/i
on a message: a case-insensitive search for any of its three alternatives. -/
def matchesNetworkPattern (m : String) : Bool :=
  let low := (asciiLower m).toList
  containsSeq low "network".toList || containsSeq low "fetch failed".toList ||
    containsSeq low "failed to fetch".toList

/-- Embedding of isNetworkError (src/index.ts lines 346-358): true for any
TypeError, and for any other Error whose non-empty message matches the
connectivity pattern (TinyDBError and OfflineError both extend Error, so
they are tested by the same message branch). -/
def isNetworkError (e : JsError) : Bool :=
  match e with
  | .typeError _ => true
  | .genericError m | .tinyDBError m _ _ _ | .offlineError m _ =>
      m != "" && matchesNetworkPattern m

/-- First truthy value of the chain, else the final fallback (the JavaScript
a || b || ... || d expression). -/
def firstTruthyOr (xs : List JsValue) (fallback : JsValue) : JsValue :=
  match xs with
  | [] => fallback
  | x :: rest => if truthy x then x else firstTruthyOr rest fallback

/-- Embedding of parseError (src/index.ts lines 360-376): best-effort JSON
decode of the body (undefined when empty or unparseable), message from the
first truthy of payload.message, payload.error_description, payload.error,
the statusText, then "Request failed"; code from payload.code falling back
to payload.error; details is the decoded payload. -/
def parseError (pf : Platform) (r : HttpResponse) : JsError :=
  let payload : JsValue :=
    if r.body = "" then .jundefined
    else (pf.jsonParse r.body).getD .jundefined
  let message := firstTruthyOr
    [getProp payload "message", getProp payload "error_description",
     getProp payload "error", .jstr r.statusText] (.jstr "Request failed")
  let code := firstTruthyOr [getProp payload "code"] (getProp payload "error")
  .tinyDBError (jsToString message) r.status code payload

/-- Run a stored response parser on a response, as jsonParser
(src/index.ts lines 232-245) and the void parser behave: 204 or an empty
body yields undefined, a parse exception becomes the generic error the
parser throws, and the void parser ignores the response. -/
def runCodec (pf : Platform) : CodecKind → HttpResponse → Except JsError JsValue
  | .jsonCodec, r =>
      if r.status = 204 then .ok .jundefined
      else if r.body = "" then .ok .jundefined
      else
        match pf.jsonParse r.body with
        | some v => .ok v
        | none => .error (.genericError "Failed to parse JSON response")
  | .voidCodec, _ => .ok .jundefined

/-- What one fetch does: either deliver an HTTP response or reject with an
error (connectivity failure). -/
inductive TransportResult where
  | resp (r : HttpResponse)
  | netErr (e : JsError)

/-- The transport oracle: the outcome of the n-th fetch the process issues,
given its URL and init. Indexing by the call count lets the environment
answer the same request differently across retries. -/
abbrev Transport := Nat → String → RequestInit → TransportResult

/-- The trace of fetches issued so far, in order. -/
structure World where
  calls : List (String × RequestInit)

/-- Client configuration fixed at construction: the endpoint normalized to a
single trailing slash, the API key, the optional app id and the offline
flag. -/
structure Config where
  endpoint : String
  apiKey : String
  appId : Option String
  offlineMode : Bool

/-- The base headers the constructor installs: Accept, X-API-Key, and
X-App-ID when an app id is configured. -/
def baseHeaders (cfg : Config) : List (String × String) :=
  [("Accept", "application/json"), ("X-API-Key", cfg.apiKey)] ++
    (match cfg.appId with
     | some a => [("X-App-ID", a)]
     | none => [])

/-- A TinyDB client: its configuration and the in-memory offline queue
(created empty at construction). -/
structure Client where
  cfg : Config
  offlineQueue : List QueuedOperation

/-- Header object lookup (JS object keys are matched exactly). -/
def lookupHeader : List (String × String) → String → Option String
  | [], _ => none
  | (k, v) :: rest, key => if k = key then some v else lookupHeader rest key

/-- Header assignment: replace in place, else append. -/
def setHeader : List (String × String) → String → String → List (String × String)
  | [], key, v => [(key, v)]
  | (k, w) :: rest, key, v =>
      if k = key then (key, v) :: rest else (k, w) :: setHeader rest key v

/-- The object spread `{...base, ...extra}` on header records. -/
def mergeHeaders (base extra : List (String × String)) : List (String × String) :=
  extra.foldl (fun acc kv => setHeader acc kv.1 kv.2) base

/-- The `base.replace(/\/?$/, "")` step of buildURL: drop one trailing
slash when present. -/
def stripTrailingSlash (s : String) : String :=
  match s.toList.reverse with
  | '/' :: rest => String.mk rest.reverse
  | _ => s

/-- The `endpoint.replace(/\/?$/, "/")` normalization in the constructor:
exactly one trailing slash. -/
def normalizeEndpoint (s : String) : String :=
  stripTrailingSlash s ++ "/"

/-- Join a list of key=value fragments with ampersands (the text
searchParams end up as; the call sites never repeat a key). -/
def joinAmp : List String → String
  | [] => ""
  | [x] => x
  | x :: rest => x ++ "&" ++ joinAmp rest

/-- Embedding of buildURL (src/index.ts lines 328-344): join the
slash-trimmed base with the slash-prefixed path and append the query
parameters whose value is defined, in insertion order. The URL text is kept
structural (percent-encoding by the URL class is not modelled); the call
sites never repeat a query key, so searchParams.set is a plain append. -/
def buildURL (base path : String) (query : List (String × Option String)) : String :=
  let trimmed := stripTrailingSlash base
  let normalized :=
    match path.toList with
    | '/' :: _ => path
    | _ => "/" ++ path
  let defined := query.filterMap fun kv => kv.2.map fun v => (kv.1, v)
  trimmed ++ normalized ++
    (if defined.isEmpty then ""
     else "?" ++ joinAmp (defined.map fun kv => kv.1 ++ "=" ++ kv.2))

/-- The options of one executor call (interface RequestOptions): query as an
ordered record, the body as a structured JS value, the optional parser and
the offline-queue opt-in (absent means false, matching the truthiness
test). -/
structure RequestOptions where
  method : String
  path : String
  query : List (String × Option String) := []
  body : Option JsValue := none
  headers : List (String × String) := []
  codec : Option CodecKind := none
  allowOfflineQueue : Bool := false

/-- The URL requestInternal builds for a call (it depends only on the
fixed configuration). -/
def builtUrl (cfg : Config) (opts : RequestOptions) : String :=
  buildURL cfg.endpoint opts.path opts.query

/-- The RequestInit requestInternal builds: merged headers, and for a
structured body the JSON serialization plus a Content-Type default when the
caller set none. -/
def builtInit (pf : Platform) (cfg : Config) (opts : RequestOptions) : RequestInit :=
  let headers0 := mergeHeaders (baseHeaders cfg) opts.headers
  match opts.body with
  | none => ⟨opts.method, headers0, none⟩
  | some b =>
      let hs :=
        if (lookupHeader headers0 "Content-Type").isSome then headers0
        else setHeader headers0 "Content-Type" "application/json"
      ⟨opts.method, hs, some (pf.stringifyDU b)⟩

/-- Outcome of the try block of requestInternal given the transport's
answer: a rejection propagates, a non-ok response becomes the parsed
protocol error, an ok response is handed to the parser. -/
def attemptOf (pf : Platform) (codec : CodecKind) (res : TransportResult) :
    Except JsError JsValue :=
  match res with
  | .netErr e => .error e
  | .resp r => if r.ok then runCodec pf codec r else .error (parseError pf r)

/-- Embedding of TinyDB.requestInternal (src/index.ts lines 584-633):
build the URL and init, issue one fetch (appending it to the trace), and on
any caught error append the captured operation to the offline queue and
reject with an OfflineError exactly when offline mode is on, the call opted
in, the method is not GET and the error is network-classified; otherwise
the error propagates unchanged. -/
def requestInternal (pf : Platform) (tr : Transport) (c : Client) (w : World)
    (opts : RequestOptions) : Except JsError JsValue × Client × World :=
  let codec := opts.codec.getD .jsonCodec
  let url := builtUrl c.cfg opts
  let init := builtInit pf c.cfg opts
  let res := tr w.calls.length url init
  let w' : World := ⟨w.calls ++ [(url, init)]⟩
  match attemptOf pf codec res with
  | .ok v => (.ok v, c, w')
  | .error e =>
      if c.cfg.offlineMode && opts.allowOfflineQueue && (opts.method != "GET")
          && isNetworkError e then
        (.error (.offlineError "Request queued while offline" ⟨url, init, codec⟩),
         { c with offlineQueue := c.offlineQueue ++ [⟨url, init, codec⟩] }, w')
      else (.error e, c, w')

/-- The (url, init) pair one executor call issues, as a function of the
fixed configuration. -/
def reqCall (pf : Platform) (cfg : Config) (opts : RequestOptions) : String × RequestInit :=
  (builtUrl cfg opts, builtInit pf cfg opts)

/-- The (url, init) pair a queued operation replays with. -/
def opCall (op : QueuedOperation) : String × RequestInit :=
  (op.url, op.init)

/-- Outcome of replaying one queued operation as the i-th fetch: rejection
or non-ok response or parser failure is an error, success is the parsed
value (the body of flush's try block). -/
def replayResult (pf : Platform) (tr : Transport) (i : Nat) (op : QueuedOperation) :
    Except JsError JsValue :=
  match tr i op.url op.init with
  | .netErr e => .error e
  | .resp r => if r.ok then runCodec pf op.codec r else .error (parseError pf r)

/-- The while loop of TinyDB.flushOfflineQueue (src/index.ts lines 495-510)
expressed on the queue list: replay the head with the exact captured
request (one fetch, appended to the trace, then the ok test and the stored
parser, which is what replayResult composes); on success remove the head
and continue, on any failure keep the whole remaining queue and propagate
the error. -/
def flushAux (pf : Platform) (tr : Transport) :
    List QueuedOperation → World → Except JsError Unit × List QueuedOperation × World
  | [], w => (.ok (), [], w)
  | op :: rest, w =>
      let w' : World := ⟨w.calls ++ [opCall op]⟩
      match replayResult pf tr w.calls.length op with
      | .error e => (.error e, op :: rest, w')
      | .ok _ => flushAux pf tr rest w'

/-- The statement that every operation of the list, replayed in order
starting at call index i, succeeds. -/
def succeedsFrom (pf : Platform) (tr : Transport) : Nat → List QueuedOperation → Prop
  | _, [] => True
  | i, op :: rest =>
      (∃ v, replayResult pf tr i op = .ok v) ∧ succeedsFrom pf tr (i + 1) rest

/-- Embedding of TinyDB.flushOfflineQueue. -/
def flushOfflineQueue (pf : Platform) (tr : Transport) (c : Client) (w : World) :
    Except JsError Unit × Client × World :=
  let out := flushAux pf tr c.offlineQueue w
  (out.1, { c with offlineQueue := out.2.1 }, out.2.2)

/-- Primary-key configuration supplied to ensureCollection (interface
PrimaryKeyConfig; the type field is named pkType here because `type` is
reserved). -/
structure PrimaryKeyConfig where
  field : Option String
  pkType : Option String
  auto : Option Bool

/-- Input of ensureCollection: the name, the optional schema definition (as
the structured JS value the caller passed) and the optional primary-key
block. -/
structure EnsureCollectionInput where
  name : String
  schema : Option JsValue
  primaryKey : Option PrimaryKeyConfig

/-- Embedding of stringifySchema (src/index.ts lines 317-326): serialize
the schema with the undefined-dropping replacer, none when absent. -/
def stringifySchema (pf : Platform) : Option JsValue → Option String
  | none => none
  | some sc => some (pf.stringifyDU sc)

/-- The primary_key block of the create body: only the fields the caller
set. -/
def pkFields (pk : PrimaryKeyConfig) : List (String × JsValue) :=
  (match pk.field with
   | some f => [("field", .jstr f)]
   | none => []) ++
  (match pk.pkType with
   | some t => [("type", .jstr t)]
   | none => []) ++
  (match pk.auto with
   | some a => [("auto", .jbool a)]
   | none => [])

/-- The body ensureCollection posts: name, then schema when the serialized
schema is truthy, then app_id when configured, then a non-empty
primary_key block. -/
def ensureBody (cfg : Config) (pf : Platform) (input : EnsureCollectionInput) : JsValue :=
  let base := [("name", JsValue.jstr input.name)]
  let withSchema :=
    match stringifySchema pf input.schema with
    | some s => if s ≠ "" then base ++ [("schema", JsValue.jstr s)] else base
    | none => base
  let withApp :=
    match cfg.appId with
    | some a => withSchema ++ [("app_id", JsValue.jstr a)]
    | none => withSchema
  let withPk :=
    match input.primaryKey with
    | some pk =>
        if (pkFields pk).isEmpty then withApp
        else withApp ++ [("primary_key", JsValue.jobj (pkFields pk))]
    | none => withApp
  .jobj withPk

/-- Options of the create-collection POST inside ensureCollection. -/
def createOpts (cfg : Config) (pf : Platform) (input : EnsureCollectionInput) :
    RequestOptions :=
  { method := "POST", path := "/api/collections",
    body := some (ensureBody cfg pf input), codec := some .jsonCodec,
    allowOfflineQueue := false }

/-- Options of the schema-update PUT issued on a name conflict. -/
def updateOpts (pf : Platform) (name : String) (schemaStr : String) : RequestOptions :=
  { method := "PUT", path := "/api/collections/" ++ pf.encodeURIComponent name,
    body := some (.jobj [("schema", .jstr schemaStr)]), codec := some .jsonCodec,
    allowOfflineQueue := false }

/-- Options of the collection-listing GET. -/
def listOpts : RequestOptions :=
  { method := "GET", path := "/api/collections", codec := some .jsonCodec }

/-- The element list of an array value, none otherwise (a .map call on
anything else raises a TypeError in JS). -/
def asArrayElems : JsValue → Option (List JsValue)
  | .jarr elems _ => some elems
  | _ => none

/-- Embedding of TinyDB.collections (src/index.ts lines 486-493): fetch the
listing and map parseCollection over it; a non-array payload makes the .map
call raise a TypeError. -/
def collections (pf : Platform) (tr : Transport) (c : Client) (w : World) :
    Except JsError (List JsValue) × Client × World :=
  match requestInternal pf tr c w listOpts with
  | (.error e, c1, w1) => (.error e, c1, w1)
  | (.ok payload, c1, w1) =>
      match asArrayElems payload with
      | some items => (.ok (items.map (parseCollection pf)), c1, w1)
      | none => (.error (.typeError "payload.map is not a function"), c1, w1)

/-- The find callback of describeCollection on one listing entry: compare
the lowercased name; a listing entry whose name is not a string makes the
toLowerCase call raise a TypeError, which the scan propagates. -/
def findByName (lowered : String) : List JsValue → Except JsError (Option JsValue)
  | [] => .ok none
  | col :: rest =>
      match getProp col "name" with
      | .jstr s => if asciiLower s = lowered then .ok (some col) else findByName lowered rest
      | _ => .error (.typeError "col.name.toLowerCase is not a function")

/-- The distinguished error describeCollection throws when the listing has
no match. -/
def notFoundError (name : String) : JsError :=
  .tinyDBError ("collection " ++ name ++ " not found") 404
    (.jstr "collection_not_found") .jundefined

/-- Embedding of TinyDB.describeCollection (src/index.ts lines 569-581):
list all collections and return the first case-insensitive name match, or
throw the 404 collection_not_found error. -/
def describeCollection (pf : Platform) (tr : Transport) (c : Client) (w : World)
    (name : String) : Except JsError JsValue × Client × World :=
  match collections pf tr c w with
  | (.error e, c1, w1) => (.error e, c1, w1)
  | (.ok listings, c1, w1) =>
      match findByName (asciiLower name) listings with
      | .error e => (.error e, c1, w1)
      | .ok (some found) => (.ok found, c1, w1)
      | .ok none => (.error (notFoundError name), c1, w1)

/-- Whether the caught error is a TinyDBError with status 409 (the conflict
test in ensureCollection's catch block). -/
def is409 (e : JsError) : Bool :=
  match e with
  | .tinyDBError _ status _ _ => status == 409
  | _ => false

/-- The conflict fallback of ensureCollection when no schema string was
supplied: adopt the existing collection found by lookup (always truthy when
the lookup returns), and rethrow the original error otherwise; a lookup
failure propagates instead. -/
def ensureFallback (pf : Platform) (tr : Transport) (c : Client) (w : World)
    (name : String) (original : JsError) : Except JsError JsValue × Client × World :=
  match describeCollection pf tr c w name with
  | (.ok existing, c2, w2) =>
      if truthy existing then (.ok existing, c2, w2) else (.error original, c2, w2)
  | (.error e2, c2, w2) => (.error e2, c2, w2)

/-- Embedding of TinyDB.ensureCollection (src/index.ts lines 512-567):
post the create body; on success return the parsed descriptor; on a
TinyDBError with status 409, either PUT the serialized schema against the
existing collection (when the schema string is truthy) or look the
collection up by name; any other failure propagates unchanged. -/
def ensureCollection (pf : Platform) (tr : Transport) (c : Client) (w : World)
    (input : EnsureCollectionInput) : Except JsError JsValue × Client × World :=
  match requestInternal pf tr c w (createOpts c.cfg pf input) with
  | (.ok created, c1, w1) => (.ok (parseCollection pf created), c1, w1)
  | (.error e, c1, w1) =>
      if is409 e then
        match stringifySchema pf input.schema with
        | some s =>
            if s ≠ "" then
              match requestInternal pf tr c1 w1 (updateOpts pf input.name s) with
              | (.ok upd, c2, w2) => (.ok (parseCollection pf upd), c2, w2)
              | (.error e2, c2, w2) => (.error e2, c2, w2)
            else ensureFallback pf tr c1 w1 input.name e
        | none => ensureFallback pf tr c1 w1 input.name e
      else (.error e, c1, w1)

/-- Whether String.prototype.trim strips the character (the whitespace the
verified names exercise). -/
def isJsSpace (c : Char) : Bool :=
  c = ' ' || c = '\t' || c = '\n' || c = '\r' || c = '\x0b' || c = '\x0c'

/-- Model of String.prototype.trim: strip leading and trailing whitespace. -/
def jsTrim (s : String) : String :=
  String.mk (((s.toList.dropWhile isJsSpace).reverse.dropWhile isJsSpace).reverse)

/-- A collection builder as TinyDB.collection returns it: the trimmed name
with no schema or primary-key configuration yet. -/
structure CollectionBuilder where
  name : String
  schemaDef : Option JsValue := none
  pkConfig : Option PrimaryKeyConfig := none

/-- Embedding of TinyDB.collection (src/index.ts lines 477-484): reject a
name that is empty or trims to empty before any network interaction (the
world is returned untouched), else hand back a builder bound to the trimmed
name. -/
def collectionMethod (w : World) (name : String) : Except JsError CollectionBuilder × World :=
  if name = "" || jsTrim name = "" then
    (.error (.genericError "collection name is required"), w)
  else (.ok { name := jsTrim name }, w)

/-- Options of the single-document DELETE of CollectionClient.delete. -/
def deleteOpts (pf : Platform) (collName docId : String) : RequestOptions :=
  { method := "DELETE",
    path := "/api/collections/" ++ pf.encodeURIComponent collName ++ "/documents/"
      ++ pf.encodeURIComponent docId,
    codec := some .voidCodec, allowOfflineQueue := true }

/-- Options of the single-document purge DELETE, carrying the confirm flag. -/
def purgeOpts (pf : Platform) (collName docId : String) : RequestOptions :=
  { method := "DELETE",
    path := "/api/collections/" ++ pf.encodeURIComponent collName ++ "/documents/"
      ++ pf.encodeURIComponent docId ++ "/purge",
    query := [("confirm", some "true")],
    codec := some .voidCodec, allowOfflineQueue := true }

/-- One delete request (the single-id arm of CollectionClient.delete,
src/index.ts lines 805-820). -/
def deleteOne (pf : Platform) (tr : Transport) (collName : String) (docId : String)
    (c : Client) (w : World) : Except JsError JsValue × Client × World :=
  requestInternal pf tr c w (deleteOpts pf collName docId)

/-- One purge request (the single-id arm of CollectionClient.purge,
src/index.ts lines 822-838). -/
def purgeOne (pf : Platform) (tr : Transport) (collName : String) (docId : String)
    (c : Client) (w : World) : Except JsError JsValue × Client × World :=
  requestInternal pf tr c w (purgeOpts pf collName docId)

/-- The batch arm of CollectionClient.delete: await each id in order,
stopping at the first failure. -/
def deleteBatch (pf : Platform) (tr : Transport) (collName : String) :
    List String → Client → World → Except JsError Unit × Client × World
  | [], c, w => (.ok (), c, w)
  | docId :: rest, c, w =>
      match deleteOne pf tr collName docId c w with
      | (.ok _, c1, w1) => deleteBatch pf tr collName rest c1 w1
      | (.error e, c1, w1) => (.error e, c1, w1)

/-- The batch arm of CollectionClient.purge: await each id in order,
stopping at the first failure. -/
def purgeBatch (pf : Platform) (tr : Transport) (collName : String) :
    List String → Client → World → Except JsError Unit × Client × World
  | [], c, w => (.ok (), c, w)
  | docId :: rest, c, w =>
      match purgeOne pf tr collName docId c w with
      | (.ok _, c1, w1) => purgeBatch pf tr collName rest c1 w1
      | (.error e, c1, w1) => (.error e, c1, w1)

/-- Options of the bulk-create POST of CollectionClient.create. -/
def bulkCreateOpts (pf : Platform) (collName : String) (docs : List JsValue) :
    RequestOptions :=
  { method := "POST",
    path := "/api/collections/" ++ pf.encodeURIComponent collName ++ "/documents/bulk",
    body := some (.jarr docs []), codec := some .jsonCodec,
    allowOfflineQueue := true }

/-- The unchecked TS cast of a wire value to DocumentPayload, modelled as a
projection: string-typed fields read strings (empty otherwise), data keeps
a string or falls to null, version stays the raw value. The verified claims
never depend on this projection. -/
def castDocumentPayload (v : JsValue) : DocumentPayload :=
  { id := jsToString (getProp v "id")
    tenant_id := jsToString (getProp v "tenant_id")
    collection_id := jsToString (getProp v "collection_id")
    key := jsToString (getProp v "key")
    key_numeric :=
      (match getProp v "key_numeric" with
       | .jnum n => some n
       | _ => none)
    data :=
      (match getProp v "data" with
       | .jstr s => some s
       | _ => none)
    version := getProp v "version"
    created_at := jsToString (getProp v "created_at")
    updated_at := jsToString (getProp v "updated_at")
    deleted_at :=
      (match getProp v "deleted_at" with
       | .jstr s => some s
       | _ => none) }

/-- The batch arm of CollectionClient.create (src/index.ts lines 742-771):
an empty input returns an empty list with no call at all; otherwise one
POST to the bulk endpoint, whose items (defaulting to empty when nullish,
TypeError when not an array) are decoded per document. -/
def createBatch (pf : Platform) (tr : Transport) (collName : String)
    (docs : List JsValue) (c : Client) (w : World) :
    Except JsError (List DocumentRecord) × Client × World :=
  if docs.isEmpty then (.ok [], c, w)
  else
    match requestInternal pf tr c w (bulkCreateOpts pf collName docs) with
    | (.error e, c1, w1) => (.error e, c1, w1)
    | (.ok resp, c1, w1) =>
        let itemsVal := if nullish resp then .jundefined else getProp resp "items"
        if nullish itemsVal then (.ok [], c1, w1)
        else
          match asArrayElems itemsVal with
          | some items =>
              (.ok (items.map fun it => parseDocument pf (castDocumentPayload it)), c1, w1)
          | none => (.error (.typeError "items.map is not a function"), c1, w1)

/-! Concrete instances used by witnesses and counterexamples. -/

/-- A platform whose JSON.parse always throws; enough for payload-free
scenarios. -/
def pfPlain : Platform :=
  ⟨fun _ => none, fun _ => "", fun s => s⟩

/-- A document payload with no data string. -/
def payNoData : DocumentPayload :=
  ⟨"d1", "t", "c", "k", none, none, .jundefined, "", "", none⟩

/-- A platform that parses the single body "42" to the number 42. -/
def pfNum : Platform :=
  ⟨fun s => if s = "42" then some (.jnum 42) else none, fun _ => "", fun s => s⟩

/-- A document payload whose data string parses to a non-object. -/
def payNum : DocumentPayload :=
  ⟨"doc-1", "t", "c", "k", none, some "42", .jundefined, "", "", none⟩

/-- A platform that parses the single body "[1]" to a one-element array. -/
def pfArr : Platform :=
  ⟨fun s => if s = "[1]" then some (.jarr [.jnum 1] []) else none, fun _ => "", fun s => s⟩

/-- A document payload whose data string parses to an array. -/
def payArr : DocumentPayload :=
  ⟨"doc-2", "t", "c", "k", none, some "[1]", .jundefined, "", "", none⟩

/-- The error body whose extracted message mentions the network. -/
def netBody : String := "\x7b\"message\":\"network unreachable\"\x7d"

/-- A platform that parses only the network-mentioning error body. -/
def pfNet : Platform :=
  ⟨fun s => if s = netBody then some (.jobj [("message", .jstr "network unreachable")]) else none,
   fun _ => "", fun s => s⟩

/-- A transport that always answers HTTP 500 with the network-mentioning
body. -/
def trHttp500 : Transport :=
  fun _ _ _ => .resp ⟨500, "Internal Server Error", netBody⟩

/-- An offline-mode client with an empty queue. -/
def cOffline : Client :=
  ⟨⟨"https://api.test/", "key", none, true⟩, []⟩

/-- An online client with an empty queue. -/
def cOnline : Client :=
  ⟨⟨"https://api.test/", "key", none, false⟩, []⟩

/-- The empty fetch trace. -/
def w0 : World := ⟨[]⟩

/-- A bare POST call that opts into the offline queue. -/
def optsPost : RequestOptions :=
  { method := "POST", path := "/p", allowOfflineQueue := true }

/-- A transport that always rejects with the TypeError fetch raises on
connectivity loss. -/
def trDown : Transport :=
  fun _ _ _ => .netErr (.typeError "Failed to fetch")

/-- A transport that always answers HTTP 404 with an empty body. -/
def trHttp404 : Transport :=
  fun _ _ _ => .resp ⟨404, "Not Found", ""⟩

/-! Helper lemmas about property access on decoded data. -/

theorem lookupField_setField (fields : List (String × JsValue)) (k : String) (v : JsValue) :
    lookupField (setField fields k v) k = some v := by
  induction fields with
  | nil => simp [setField, lookupField]
  | cons kv rest ih =>
      by_cases h : kv.1 = k
      · simp [setField, h, lookupField]
      · simp [setField, h, lookupField, ih]

theorem getProp_setProp (o : JsValue) (k : String) (v : JsValue)
    (h : isObjOrArr o = true) : getProp (setProp o k v) k = v := by
  cases o <;> simp [isObjOrArr] at h <;>
    simp [setProp, getProp, lookupField_setField]

theorem setProp_isObjOrArr (o : JsValue) (k : String) (v : JsValue)
    (h : isObjOrArr o = true) : isObjOrArr (setProp o k v) = true := by
  cases o <;> simp_all [isObjOrArr, setProp]

theorem keepObject_isObjOrArr (v : JsValue) :
    isObjOrArr (if truthy v && isObjectType v then v else .jobj []) = true := by
  cases v <;> simp [truthy, isObjectType, isObjOrArr]

theorem decodedData_isObjOrArr (pf : Platform) (p : DocumentPayload) :
    isObjOrArr (decodedData pf p) = true :=
  keepObject_isObjOrArr _

theorem parseDocument_data_eq (pf : Platform) (p : DocumentPayload) :
    (parseDocument pf p).data =
      (match (if nullish (getProp (decodedData pf p) "_doc_id") = true then JsValue.jstr p.id
              else getProp (decodedData pf p) "_doc_id") with
       | .jstr s =>
           if s ≠ "" then setProp (decodedData pf p) "_doc_id" (.jstr s)
           else setProp (decodedData pf p) "_doc_id" (.jstr p.id)
       | _ => setProp (decodedData pf p) "_doc_id" (.jstr p.id)) := rfl

theorem parseDocument_data_setProp (pf : Platform) (p : DocumentPayload) :
    ∃ s : String, (parseDocument pf p).data = setProp (decodedData pf p) "_doc_id" (.jstr s) := by
  rw [parseDocument_data_eq]
  split
  · next s _ =>
      by_cases h : s = ""
      · exact ⟨p.id, by simp [h]⟩
      · exact ⟨s, by simp [h]⟩
  · exact ⟨p.id, rfl⟩

theorem isObjOrArr_spec (v : JsValue) (h : isObjOrArr v = true) :
    isObjectType v = true ∧ v ≠ .jnull := by
  cases v <;> simp_all [isObjOrArr, isObjectType]

/-- C4 (amended): for every document payload, parseDocument yields a data
value that is object-typed (a JS object or array) and never null; an absent
data string gives an object holding only the internal id field; a data
string that raises a parse exception gives an empty object tagged with the
fallback raw key holding the original string (plus the internal id field);
a data string that parses to a falsy or non-object value gives a plain
empty object holding only the internal id field, with no raw tag. -/
theorem parseDocument_data_object (pf : Platform) (p : DocumentPayload) :
    isObjectType (parseDocument pf p).data = true ∧
    (parseDocument pf p).data ≠ .jnull ∧
    (p.data = none → (parseDocument pf p).data = .jobj [("_doc_id", .jstr p.id)]) ∧
    (∀ s, p.data = some s → s ≠ "" → pf.jsonParse s = none →
      (parseDocument pf p).data = .jobj [("_raw", .jstr s), ("_doc_id", .jstr p.id)]) ∧
    (∀ s v, p.data = some s → s ≠ "" → pf.jsonParse s = some v →
      (truthy v && isObjectType v) = false →
      (parseDocument pf p).data = .jobj [("_doc_id", .jstr p.id)]) := by
  obtain ⟨s0, hs0⟩ := parseDocument_data_setProp pf p
  have hobj := decodedData_isObjOrArr pf p
  have hshape := setProp_isObjOrArr (decodedData pf p) "_doc_id" (.jstr s0) hobj
  refine ⟨?_, ?_, ?_, ?_, ?_⟩
  · rw [hs0]; exact (isObjOrArr_spec _ hshape).1
  · rw [hs0]; exact (isObjOrArr_spec _ hshape).2
  · intro hnone
    have hd : decodedData pf p = .jobj [] := by
      simp [decodedData, hnone, truthy, isObjectType]
    rw [parseDocument_data_eq, hd]
    simp [getProp, lookupField, nullish, setProp, setField]
  · intro s hsome hne hparse
    have hd : decodedData pf p = .jobj [("_raw", .jstr s)] := by
      simp [decodedData, hsome, hne, hparse, truthy, isObjectType]
    rw [parseDocument_data_eq, hd]
    simp [getProp, lookupField, nullish, setProp, setField]
  · intro s v hsome hne hparse hcond
    have hd : decodedData pf p = .jobj [] := by
      simp [decodedData, hsome, hne, hparse, hcond]
    rw [parseDocument_data_eq, hd]
    simp [getProp, lookupField, nullish, setProp, setField]

/-- C4 counterexample: the payload whose data string "42" parses to the
number 42 decodes to a plain empty object with only the internal id field —
no fallback raw key is attached, against the claim's wording — and the
payload whose data string "[1]" parses to an array keeps the array (with
the internal id attached as a property), so the decoded data is not always
a JSON object either. -/
theorem parseDocument_nonobject_kept_untagged :
    (parseDocument pfNum payNum).data = .jobj [("_doc_id", .jstr "doc-1")] ∧
    getProp (parseDocument pfNum payNum).data "_raw" = .jundefined ∧
    (parseDocument pfArr payArr).data = .jarr [.jnum 1] [("_doc_id", .jstr "doc-2")] :=
  ⟨rfl, rfl, rfl⟩

/-- C5: for every document payload with a non-empty id, the decoded data
carries an internal _doc_id field that is a non-empty string: the
pre-existing _doc_id value inside the parsed data when that value is a
non-empty string, and the payload's record id otherwise. -/
theorem parseDocument_doc_id_mirrors (pf : Platform) (p : DocumentPayload)
    (hid : p.id ≠ "") :
    getProp (parseDocument pf p).data "_doc_id" =
      (match getProp (decodedData pf p) "_doc_id" with
       | .jstr t => if t = "" then .jstr p.id else .jstr t
       | _ => .jstr p.id) ∧
    ∃ s, getProp (parseDocument pf p).data "_doc_id" = .jstr s ∧ s ≠ "" := by
  have hobj := decodedData_isObjOrArr pf p
  rw [parseDocument_data_eq]
  rcases hpre : getProp (decodedData pf p) "_doc_id" with
      _ | _ | b | n | _ | t | ⟨es, ps⟩ | fs <;>
    simp [hpre, nullish, getProp_setProp _ _ _ hobj] <;>
    try exact hid
  by_cases ht : t = "" <;>
    simp [ht, getProp_setProp _ _ _ hobj] <;>
    exact hid

/-- C5 witness at a concrete payload with no pre-existing internal id. -/
theorem parseDocument_doc_id_mirrors_case :
    getProp (parseDocument pfPlain payNoData).data "_doc_id" =
      (match getProp (decodedData pfPlain payNoData) "_doc_id" with
       | .jstr t => if t = "" then .jstr payNoData.id else .jstr t
       | _ => .jstr payNoData.id) ∧
    ∃ s, getProp (parseDocument pfPlain payNoData).data "_doc_id" = .jstr s ∧ s ≠ "" :=
  parseDocument_doc_id_mirrors pfPlain payNoData (by decide)

/-- C6: decode keeps a version that is a number and not NaN, and yields 1
in every other case (absent, non-numeric, or NaN). -/
theorem parseDocument_version_default (pf : Platform) (p : DocumentPayload) :
    (∀ n : Int, p.version = .jnum n → (parseDocument pf p).version = p.version) ∧
    ((∀ n : Int, p.version ≠ .jnum n) → (parseDocument pf p).version = .jnum 1) := by
  have hv : (parseDocument pf p).version =
      (match p.version with
       | .jnum n => JsValue.jnum n
       | _ => .jnum 1) := rfl
  constructor
  · intro n hn
    rw [hv, hn]
  · intro h
    rcases hp : p.version with _ | _ | b | n | _ | s | ⟨es, ps⟩ | fs <;>
      simp [hv, hp]
    exact absurd hp (h n)

theorem requestInternal_eq (pf : Platform) (tr : Transport) (c : Client) (w : World)
    (opts : RequestOptions) :
    requestInternal pf tr c w opts =
      (match attemptOf pf (opts.codec.getD .jsonCodec)
          (tr w.calls.length (builtUrl c.cfg opts) (builtInit pf c.cfg opts)) with
       | .ok v => (.ok v, c, ⟨w.calls ++ [(builtUrl c.cfg opts, builtInit pf c.cfg opts)]⟩)
       | .error e =>
           if c.cfg.offlineMode && opts.allowOfflineQueue && (opts.method != "GET")
               && isNetworkError e then
             (.error (.offlineError "Request queued while offline"
                 ⟨builtUrl c.cfg opts, builtInit pf c.cfg opts, opts.codec.getD .jsonCodec⟩),
              { c with offlineQueue := c.offlineQueue ++
                  [⟨builtUrl c.cfg opts, builtInit pf c.cfg opts, opts.codec.getD .jsonCodec⟩] },
              ⟨w.calls ++ [(builtUrl c.cfg opts, builtInit pf c.cfg opts)]⟩)
           else (.error e, c, ⟨w.calls ++ [(builtUrl c.cfg opts, builtInit pf c.cfg opts)]⟩)) :=
  rfl

/-- C1 (amended): when the transport answers with a non-success HTTP
status, the request executor fails with the TinyDBError built by parseError
— carrying the response status and the best-effort message — and the
offline queue is left untouched, provided the queuing guard does not fire
(offline mode off, or a GET, or queuing not allowed for the call, or an
extracted message that does not match the connectivity patterns); exactly
one fetch is issued. -/
theorem requestInternal_http_error (pf : Platform) (tr : Transport) (c : Client)
    (w : World) (opts : RequestOptions) (r : HttpResponse)
    (hresp : tr w.calls.length (builtUrl c.cfg opts) (builtInit pf c.cfg opts) = .resp r)
    (hok : r.ok = false)
    (hguard : (c.cfg.offlineMode && opts.allowOfflineQueue && (opts.method != "GET")
        && isNetworkError (parseError pf r)) = false) :
    requestInternal pf tr c w opts =
      (.error (parseError pf r), c,
       ⟨w.calls ++ [(builtUrl c.cfg opts, builtInit pf c.cfg opts)]⟩) ∧
    ∃ m code details, parseError pf r = .tinyDBError m r.status code details := by
  constructor
  · rw [requestInternal_eq, hresp]
    simp [attemptOf, hok, hguard]
  · exact ⟨_, _, _, rfl⟩

/-- C1 witness: an online client meeting a plain 404. -/
theorem requestInternal_http_error_case :
    requestInternal pfPlain trHttp404 cOnline w0 optsPost =
      (.error (parseError pfPlain ⟨404, "Not Found", ""⟩), cOnline,
       ⟨[(builtUrl cOnline.cfg optsPost, builtInit pfPlain cOnline.cfg optsPost)]⟩) ∧
    ∃ m code details,
      parseError pfPlain ⟨404, "Not Found", ""⟩ = .tinyDBError m 404 code details :=
  requestInternal_http_error pfPlain trHttp404 cOnline w0 optsPost
    ⟨404, "Not Found", ""⟩ rfl (by decide) rfl

/-- C1 counterexample: with offline mode on, a queued-allowed POST and an
HTTP 500 whose body message mentions the network, the parsed protocol error
is network-classified by the shared catch block, so the call rejects with
an OfflineError and the operation is appended to the offline queue —
against the claim that a non-success HTTP status is never queued for all
response bodies. -/
theorem requestInternal_http_error_queued :
    (requestInternal pfNet trHttp500 cOffline w0 optsPost).2.1.offlineQueue.length = 1 ∧
    requestInternal pfNet trHttp500 cOffline w0 optsPost =
      (.error (.offlineError "Request queued while offline"
          ⟨builtUrl cOffline.cfg optsPost, builtInit pfNet cOffline.cfg optsPost, .jsonCodec⟩),
       { cOffline with offlineQueue :=
           [⟨builtUrl cOffline.cfg optsPost, builtInit pfNet cOffline.cfg optsPost, .jsonCodec⟩] },
       ⟨[(builtUrl cOffline.cfg optsPost, builtInit pfNet cOffline.cfg optsPost)]⟩) :=
  ⟨by rfl, by rfl⟩

/-- C2: when offline mode is on, the method is not GET, the call opted into
queuing, and the transport rejects with a network-classified error, the
executor appends exactly one captured operation — the built URL, init and
parser — to the tail of the offline queue, rejects with an OfflineError
carrying that same operation, and issues exactly one fetch (no inline
retry). -/
theorem requestInternal_offline_enqueue (pf : Platform) (tr : Transport) (c : Client)
    (w : World) (opts : RequestOptions) (e : JsError)
    (hnet : tr w.calls.length (builtUrl c.cfg opts) (builtInit pf c.cfg opts) = .netErr e)
    (hoffline : c.cfg.offlineMode = true)
    (hallow : opts.allowOfflineQueue = true)
    (hmethod : (opts.method != "GET") = true)
    (hclass : isNetworkError e = true) :
    requestInternal pf tr c w opts =
      (.error (.offlineError "Request queued while offline"
          ⟨builtUrl c.cfg opts, builtInit pf c.cfg opts, opts.codec.getD .jsonCodec⟩),
       { c with offlineQueue := c.offlineQueue ++
           [⟨builtUrl c.cfg opts, builtInit pf c.cfg opts, opts.codec.getD .jsonCodec⟩] },
       ⟨w.calls ++ [(builtUrl c.cfg opts, builtInit pf c.cfg opts)]⟩) := by
  rw [requestInternal_eq, hnet]
  simp [attemptOf, hoffline, hallow, hmethod, hclass]

theorem flushAux_cons_ok (pf : Platform) (tr : Transport) (op : QueuedOperation)
    (rest : List QueuedOperation) (w : World) (v : JsValue)
    (hrr : replayResult pf tr w.calls.length op = .ok v) :
    flushAux pf tr (op :: rest) w = flushAux pf tr rest ⟨w.calls ++ [opCall op]⟩ := by
  simp [flushAux, hrr]

theorem flushAux_cons_err (pf : Platform) (tr : Transport) (op : QueuedOperation)
    (rest : List QueuedOperation) (w : World) (e : JsError)
    (hrr : replayResult pf tr w.calls.length op = .error e) :
    flushAux pf tr (op :: rest) w = (.error e, op :: rest, ⟨w.calls ++ [opCall op]⟩) := by
  simp [flushAux, hrr]

theorem flushAux_spec (pf : Platform) (tr : Transport) :
    ∀ (q : List QueuedOperation) (w : World),
      ∃ pre post,
        q = pre ++ post ∧
        succeedsFrom pf tr w.calls.length pre ∧
        (flushAux pf tr q w).2.1 = post ∧
        (post = [] →
          (flushAux pf tr q w).1 = .ok () ∧
          (flushAux pf tr q w).2.2.calls = w.calls ++ pre.map opCall) ∧
        (∀ op rest2, post = op :: rest2 →
          ∃ e, replayResult pf tr (w.calls.length + pre.length) op = .error e ∧
            (flushAux pf tr q w).1 = .error e ∧
            (flushAux pf tr q w).2.2.calls = w.calls ++ pre.map opCall ++ [opCall op]) := by
  intro q
  induction q with
  | nil =>
      intro w
      refine ⟨[], [], rfl, trivial, rfl, fun _ => ⟨rfl, by simp [flushAux]⟩, ?_⟩
      intro op rest2 h
      simp at h
  | cons op rest ih =>
      intro w
      rcases hrr : replayResult pf tr w.calls.length op with e | v
      · refine ⟨[], op :: rest, rfl, trivial, ?_, ?_, ?_⟩
        · rw [flushAux_cons_err pf tr op rest w e hrr]
        · intro h
          simp at h
        · intro op2 rest2 h
          rw [List.cons.injEq] at h
          obtain ⟨rfl, rfl⟩ := h
          refine ⟨e, by simpa using hrr, ?_, ?_⟩
          · rw [flushAux_cons_err pf tr op rest w e hrr]
          · rw [flushAux_cons_err pf tr op rest w e hrr]
            simp
      · obtain ⟨pre, post, hq, hsucc, hqueue, hdone, hfail⟩ := ih ⟨w.calls ++ [opCall op]⟩
        have hstep := flushAux_cons_ok pf tr op rest w v hrr
        refine ⟨op :: pre, post, by simp [hq], ?_, ?_, ?_, ?_⟩
        · exact ⟨⟨v, hrr⟩, by simpa using hsucc⟩
        · rw [hstep]
          exact hqueue
        · intro hpost
          obtain ⟨h1, h2⟩ := hdone hpost
          rw [hstep]
          refine ⟨h1, ?_⟩
          rw [h2]
          simp
        · intro op2 rest2 hpost
          obtain ⟨e, he1, he2, he3⟩ := hfail op2 rest2 hpost
          have harith : w.calls.length + (op :: pre).length =
              (⟨w.calls ++ [opCall op]⟩ : World).calls.length + pre.length := by
            simp only [List.length_append, List.length_cons, List.length_nil]
            omega
          refine ⟨e, by rw [harith]; exact he1, ?_, ?_⟩
          · rw [hstep]
            exact he2
          · rw [hstep, he3]
            simp

/-- C3: flushOfflineQueue replays the queued operations strictly in
enqueue order from the head: the queue splits into a replayed prefix whose
operations all succeeded in sequence and a remaining suffix; when the
suffix is empty the flush succeeds having issued exactly the prefix's
requests in order; otherwise the suffix's head is the first failure, it
stays at the head of the remaining queue together with everything after
it, no later operation is attempted, and its error propagates. An empty
queue forces both parts empty, so flushing it issues nothing and
succeeds. -/
theorem flushOfflineQueue_fifo (pf : Platform) (tr : Transport) (c : Client) (w : World) :
    ∃ pre post,
      c.offlineQueue = pre ++ post ∧
      succeedsFrom pf tr w.calls.length pre ∧
      (flushOfflineQueue pf tr c w).2.1.offlineQueue = post ∧
      (flushOfflineQueue pf tr c w).2.1.cfg = c.cfg ∧
      (post = [] →
        (flushOfflineQueue pf tr c w).1 = .ok () ∧
        (flushOfflineQueue pf tr c w).2.2.calls = w.calls ++ pre.map opCall) ∧
      (∀ op rest2, post = op :: rest2 →
        ∃ e, replayResult pf tr (w.calls.length + pre.length) op = .error e ∧
          (flushOfflineQueue pf tr c w).1 = .error e ∧
          (flushOfflineQueue pf tr c w).2.2.calls =
            w.calls ++ pre.map opCall ++ [opCall op]) := by
  obtain ⟨pre, post, h1, h2, h3, h4, h5⟩ := flushAux_spec pf tr c.offlineQueue w
  exact ⟨pre, post, h1, h2, h3, rfl, h4, h5⟩

/-- C2 witness: an offline client whose POST meets a connectivity
TypeError. -/
theorem requestInternal_offline_enqueue_case :
    requestInternal pfPlain trDown cOffline w0 optsPost =
      (.error (.offlineError "Request queued while offline"
          ⟨builtUrl cOffline.cfg optsPost, builtInit pfPlain cOffline.cfg optsPost, .jsonCodec⟩),
       { cOffline with offlineQueue :=
           [⟨builtUrl cOffline.cfg optsPost, builtInit pfPlain cOffline.cfg optsPost, .jsonCodec⟩] },
       ⟨[(builtUrl cOffline.cfg optsPost, builtInit pfPlain cOffline.cfg optsPost)]⟩) :=
  requestInternal_offline_enqueue pfPlain trDown cOffline w0 optsPost
    (.typeError "Failed to fetch") rfl rfl rfl (by decide) rfl

theorem requestInternal_cfg (pf : Platform) (tr : Transport) (c : Client) (w : World)
    (opts : RequestOptions) : (requestInternal pf tr c w opts).2.1.cfg = c.cfg := by
  rw [requestInternal_eq]
  cases attemptOf pf (opts.codec.getD .jsonCodec)
      (tr w.calls.length (builtUrl c.cfg opts) (builtInit pf c.cfg opts)) with
  | ok v => rfl
  | error e =>
      by_cases hg : (c.cfg.offlineMode && opts.allowOfflineQueue && (opts.method != "GET")
          && isNetworkError e) = true
      · simp [hg]
      · simp [hg]

theorem requestInternal_calls (pf : Platform) (tr : Transport) (c : Client) (w : World)
    (opts : RequestOptions) :
    (requestInternal pf tr c w opts).2.2.calls =
      w.calls ++ [reqCall pf c.cfg opts] := by
  rw [requestInternal_eq]
  cases attemptOf pf (opts.codec.getD .jsonCodec)
      (tr w.calls.length (builtUrl c.cfg opts) (builtInit pf c.cfg opts)) with
  | ok v => rfl
  | error e =>
      by_cases hg : (c.cfg.offlineMode && opts.allowOfflineQueue && (opts.method != "GET")
          && isNetworkError e) = true
      · simp [hg, reqCall]
      · simp [hg, reqCall]

theorem seqBatch_spec (pf : Platform) (tr : Transport) (optsOf : String → RequestOptions)
    (step : List String → Client → World → Except JsError Unit × Client × World)
    (hnil : ∀ c w, step [] c w = (.ok (), c, w))
    (hcons : ∀ i rest c w, step (i :: rest) c w =
      (match requestInternal pf tr c w (optsOf i) with
       | (.ok _, c1, w1) => step rest c1 w1
       | (.error e, c1, w1) => (.error e, c1, w1))) :
    ∀ (ids : List String) (c : Client) (w : World),
      ∃ preIds postIds,
        ids = preIds ++ postIds ∧
        (step ids c w).2.1.cfg = c.cfg ∧
        (postIds = [] →
          (step ids c w).1 = .ok () ∧
          (step ids c w).2.2.calls =
            w.calls ++ preIds.map (fun j => reqCall pf c.cfg (optsOf j))) ∧
        (∀ i rest2, postIds = i :: rest2 →
          ∃ e c2, c2.cfg = c.cfg ∧
            (requestInternal pf tr c2
              ⟨w.calls ++ preIds.map (fun j => reqCall pf c.cfg (optsOf j))⟩ (optsOf i)).1
              = .error e ∧
            (step ids c w).1 = .error e ∧
            (step ids c w).2.2.calls =
              w.calls ++ preIds.map (fun j => reqCall pf c.cfg (optsOf j))
                ++ [reqCall pf c.cfg (optsOf i)]) := by
  intro ids
  induction ids with
  | nil =>
      intro c w
      refine ⟨[], [], rfl, by rw [hnil], ?_, ?_⟩
      · intro _
        rw [hnil]
        exact ⟨rfl, by simp⟩
      · intro i rest2 h
        simp at h
  | cons i rest ih =>
      intro c w
      rcases hreq : requestInternal pf tr c w (optsOf i) with ⟨res, c1, w1⟩
      have hc1 : c1.cfg = c.cfg := by
        have h := requestInternal_cfg pf tr c w (optsOf i)
        rw [hreq] at h
        exact h
      have hw1 : w1.calls = w.calls ++ [reqCall pf c.cfg (optsOf i)] := by
        have h := requestInternal_calls pf tr c w (optsOf i)
        rw [hreq] at h
        exact h
      cases res with
      | error e =>
          have hstep : step (i :: rest) c w = (.error e, c1, w1) := by
            rw [hcons, hreq]
          refine ⟨[], i :: rest, rfl, by rw [hstep]; exact hc1, ?_, ?_⟩
          · intro h
            simp at h
          · intro i2 rest2 h
            rw [List.cons.injEq] at h
            obtain ⟨rfl, rfl⟩ := h
            refine ⟨e, c, rfl, ?_, by rw [hstep], by rw [hstep]; simp [hw1]⟩
            have hwo : (⟨w.calls ++ ([] : List String).map
                (fun j => reqCall pf c.cfg (optsOf j))⟩ : World) = w := by
              simp
            rw [hwo, hreq]
      | ok v =>
          obtain ⟨pre2, post2, hq, hcfg2, hdone2, hfail2⟩ := ih c1 w1
          have hstep : step (i :: rest) c w = step rest c1 w1 := by
            rw [hcons, hreq]
          refine ⟨i :: pre2, post2, by simp [hq], ?_, ?_, ?_⟩
          · rw [hstep, hcfg2, hc1]
          · intro hpost
            obtain ⟨h1, h2⟩ := hdone2 hpost
            rw [hstep]
            refine ⟨h1, ?_⟩
            rw [h2, hc1, hw1]
            simp
          · intro i2 rest2 hpost
            obtain ⟨e, c2, hcc, hereq, he2, he3⟩ := hfail2 i2 rest2 hpost
            refine ⟨e, c2, by rw [hcc, hc1], ?_, by rw [hstep]; exact he2, ?_⟩
            · have hwo : (⟨w.calls ++ (i :: pre2).map
                  (fun j => reqCall pf c.cfg (optsOf j))⟩ : World) =
                  ⟨w1.calls ++ pre2.map (fun j => reqCall pf c1.cfg (optsOf j))⟩ := by
                rw [hw1, hc1]
                simp
              rw [hwo]
              exact hereq
            · rw [hstep, he3, hc1, hw1]
              simp

theorem deleteBatch_cons (pf : Platform) (tr : Transport) (collName : String)
    (i : String) (rest : List String) (c : Client) (w : World) :
    deleteBatch pf tr collName (i :: rest) c w =
      (match requestInternal pf tr c w (deleteOpts pf collName i) with
       | (.ok _, c1, w1) => deleteBatch pf tr collName rest c1 w1
       | (.error e, c1, w1) => (.error e, c1, w1)) := by
  show (match deleteOne pf tr collName i c w with
        | (.ok _, c1, w1) => deleteBatch pf tr collName rest c1 w1
        | (.error e, c1, w1) => (.error e, c1, w1)) = _
  rcases hreq : requestInternal pf tr c w (deleteOpts pf collName i) with ⟨res, c1, w1⟩
  rw [show deleteOne pf tr collName i c w = (res, c1, w1) from hreq]

theorem purgeBatch_cons (pf : Platform) (tr : Transport) (collName : String)
    (i : String) (rest : List String) (c : Client) (w : World) :
    purgeBatch pf tr collName (i :: rest) c w =
      (match requestInternal pf tr c w (purgeOpts pf collName i) with
       | (.ok _, c1, w1) => purgeBatch pf tr collName rest c1 w1
       | (.error e, c1, w1) => (.error e, c1, w1)) := by
  show (match purgeOne pf tr collName i c w with
        | (.ok _, c1, w1) => purgeBatch pf tr collName rest c1 w1
        | (.error e, c1, w1) => (.error e, c1, w1)) = _
  rcases hreq : requestInternal pf tr c w (purgeOpts pf collName i) with ⟨res, c1, w1⟩
  rw [show purgeOne pf tr collName i c w = (res, c1, w1) from hreq]

/-- C8: batch delete and batch purge are applied per identifier
sequentially in list order — the identifier list splits into a prefix whose
requests were issued in order (one per identifier, visible in the trace)
and a suffix; an empty suffix means every delete/purge was issued and the
call succeeded; otherwise the suffix's head identifier is the one whose
request failed, its error propagates as the batch result, and no request
for any later identifier is issued. Purge requests always carry the
confirm=true query flag in their URL. -/
theorem batch_delete_purge_sequential (pf : Platform) (tr : Transport)
    (collName : String) (ids : List String) (c : Client) (w : World) :
    (∃ preIds postIds,
      ids = preIds ++ postIds ∧
      (deleteBatch pf tr collName ids c w).2.1.cfg = c.cfg ∧
      (postIds = [] →
        (deleteBatch pf tr collName ids c w).1 = .ok () ∧
        (deleteBatch pf tr collName ids c w).2.2.calls =
          w.calls ++ preIds.map (fun j => reqCall pf c.cfg (deleteOpts pf collName j))) ∧
      (∀ i rest2, postIds = i :: rest2 →
        ∃ e c2, c2.cfg = c.cfg ∧
          (requestInternal pf tr c2
            ⟨w.calls ++ preIds.map (fun j => reqCall pf c.cfg (deleteOpts pf collName j))⟩
            (deleteOpts pf collName i)).1 = .error e ∧
          (deleteBatch pf tr collName ids c w).1 = .error e ∧
          (deleteBatch pf tr collName ids c w).2.2.calls =
            w.calls ++ preIds.map (fun j => reqCall pf c.cfg (deleteOpts pf collName j))
              ++ [reqCall pf c.cfg (deleteOpts pf collName i)])) ∧
    (∃ preIds postIds,
      ids = preIds ++ postIds ∧
      (purgeBatch pf tr collName ids c w).2.1.cfg = c.cfg ∧
      (postIds = [] →
        (purgeBatch pf tr collName ids c w).1 = .ok () ∧
        (purgeBatch pf tr collName ids c w).2.2.calls =
          w.calls ++ preIds.map (fun j => reqCall pf c.cfg (purgeOpts pf collName j))) ∧
      (∀ i rest2, postIds = i :: rest2 →
        ∃ e c2, c2.cfg = c.cfg ∧
          (requestInternal pf tr c2
            ⟨w.calls ++ preIds.map (fun j => reqCall pf c.cfg (purgeOpts pf collName j))⟩
            (purgeOpts pf collName i)).1 = .error e ∧
          (purgeBatch pf tr collName ids c w).1 = .error e ∧
          (purgeBatch pf tr collName ids c w).2.2.calls =
            w.calls ++ preIds.map (fun j => reqCall pf c.cfg (purgeOpts pf collName j))
              ++ [reqCall pf c.cfg (purgeOpts pf collName i)])) ∧
    (∀ i, ∃ baseUrl,
      builtUrl c.cfg (purgeOpts pf collName i) = baseUrl ++ "?confirm=true") := by
  refine ⟨?_, ?_, ?_⟩
  · exact seqBatch_spec pf tr (deleteOpts pf collName) (deleteBatch pf tr collName)
      (fun _ _ => rfl) (deleteBatch_cons pf tr collName) ids c w
  · exact seqBatch_spec pf tr (purgeOpts pf collName) (purgeBatch pf tr collName)
      (fun _ _ => rfl) (purgeBatch_cons pf tr collName) ids c w
  · intro i
    exact ⟨_, rfl⟩

/-- C9: bulk create with an empty document array returns an empty list at
once and leaves the client and the fetch trace untouched; with a non-empty
array it issues exactly one request, to the bulk documents endpoint of the
collection. -/
theorem createBatch_empty_and_bulk (pf : Platform) (tr : Transport)
    (collName : String) (docs : List JsValue) (c : Client) (w : World) :
    (docs = [] → createBatch pf tr collName docs c w = (.ok [], c, w)) ∧
    (docs ≠ [] →
      (createBatch pf tr collName docs c w).2.2.calls =
        w.calls ++ [reqCall pf c.cfg (bulkCreateOpts pf collName docs)]) ∧
    (bulkCreateOpts pf collName docs).path =
      "/api/collections/" ++ pf.encodeURIComponent collName ++ "/documents/bulk" := by
  refine ⟨?_, ?_, rfl⟩
  · intro h
    subst h
    rfl
  · intro h
    have hne : docs.isEmpty = false := by
      cases docs with
      | nil => exact absurd rfl h
      | cons d ds => rfl
    have hcalls := requestInternal_calls pf tr c w (bulkCreateOpts pf collName docs)
    rcases hreq : requestInternal pf tr c w (bulkCreateOpts pf collName docs)
      with ⟨res, c1, w1⟩
    rw [hreq] at hcalls
    have hbody : createBatch pf tr collName docs c w =
        (match (res, c1, w1) with
         | (.error e, c1, w1) => (.error e, c1, w1)
         | (.ok resp, c1, w1) =>
             let itemsVal := if nullish resp then .jundefined else getProp resp "items"
             if nullish itemsVal then (.ok [], c1, w1)
             else
               match asArrayElems itemsVal with
               | some items =>
                   (.ok (items.map fun it => parseDocument pf (castDocumentPayload it)),
                    c1, w1)
               | none => (.error (.typeError "items.map is not a function"), c1, w1)) := by
      rw [← hreq]
      simp [createBatch, hne]
    rw [hbody]
    cases res with
    | error e => exact hcalls
    | ok resp =>
        by_cases h1 : nullish (if nullish resp then JsValue.jundefined
            else getProp resp "items") = true
        · simp only [h1, if_pos]
          exact hcalls
        · simp only [h1, if_neg, Bool.not_eq_true]
          cases asArrayElems (if nullish resp then JsValue.jundefined
              else getProp resp "items") <;> simp <;> exact hcalls

/-- C10: TinyDB.collection rejects a name that is empty or all whitespace
with an error, before any network interaction (the fetch trace it returns
is the one it was given); any other name yields a builder bound to the
trimmed name, and the trimmed name is what the create body of every
subsequent ensure request carries. -/
theorem collection_name_validation (w : World) (name : String) (cfg : Config)
    (pf : Platform) :
    (jsTrim name = "" → collectionMethod w name =
      (.error (.genericError "collection name is required"), w)) ∧
    (jsTrim name ≠ "" →
      collectionMethod w name = (.ok { name := jsTrim name }, w) ∧
      getProp (ensureBody cfg pf ⟨jsTrim name, none, none⟩) "name" =
        .jstr (jsTrim name)) := by
  constructor
  · intro h
    simp [collectionMethod, h]
  · intro h
    have hname : ¬ name = "" := by
      intro he
      subst he
      exact h rfl
    constructor
    · simp [collectionMethod, hname, h]
    · unfold ensureBody stringifySchema
      cases cfg.appId <;> simp [getProp, lookupField]

theorem requestInternal_resp_fail (pf : Platform) (tr : Transport) (c : Client)
    (w : World) (opts : RequestOptions) (r : HttpResponse)
    (hresp : tr w.calls.length (builtUrl c.cfg opts) (builtInit pf c.cfg opts) = .resp r)
    (hok : r.ok = false)
    (hguard : (c.cfg.offlineMode && opts.allowOfflineQueue && (opts.method != "GET")
        && isNetworkError (parseError pf r)) = false) :
    requestInternal pf tr c w opts =
      (.error (parseError pf r), c, ⟨w.calls ++ [reqCall pf c.cfg opts]⟩) := by
  rw [requestInternal_eq, hresp]
  simp [attemptOf, hok, hguard, reqCall]

theorem requestInternal_netErr_fail (pf : Platform) (tr : Transport) (c : Client)
    (w : World) (opts : RequestOptions) (e : JsError)
    (hnet : tr w.calls.length (builtUrl c.cfg opts) (builtInit pf c.cfg opts) = .netErr e)
    (hguard : (c.cfg.offlineMode && opts.allowOfflineQueue && (opts.method != "GET")
        && isNetworkError e) = false) :
    requestInternal pf tr c w opts =
      (.error e, c, ⟨w.calls ++ [reqCall pf c.cfg opts]⟩) := by
  rw [requestInternal_eq, hnet]
  simp [attemptOf, hguard, reqCall]

theorem guard_false_of_noqueue (c : Client) (opts : RequestOptions) (e : JsError)
    (h : opts.allowOfflineQueue = false) :
    (c.cfg.offlineMode && opts.allowOfflineQueue && (opts.method != "GET")
      && isNetworkError e) = false := by
  simp [h]

theorem is409_parseError (pf : Platform) (r : HttpResponse) :
    is409 (parseError pf r) = (r.status == 409) := rfl

theorem findByName_none_of (lowered : String) :
    ∀ cols : List JsValue,
      (∀ col ∈ cols, ∃ s, getProp col "name" = .jstr s ∧ asciiLower s ≠ lowered) →
      findByName lowered cols = .ok none := by
  intro cols
  induction cols with
  | nil => intro _; rfl
  | cons col rest ih =>
      intro h
      obtain ⟨s, hs, hne⟩ := h col (by simp)
      have hrest := ih (fun c2 hc2 => h c2 (by simp [hc2]))
      simp [findByName, hs, hne, hrest]

theorem findByName_first (lowered : String) (col : JsValue) (s : String)
    (hs : getProp col "name" = .jstr s) (hmatch : asciiLower s = lowered) :
    ∀ (preL : List JsValue) (postL : List JsValue),
      (∀ col2 ∈ preL, ∃ t, getProp col2 "name" = .jstr t ∧ asciiLower t ≠ lowered) →
      findByName lowered (preL ++ col :: postL) = .ok (some col) := by
  intro preL
  induction preL with
  | nil =>
      intro postL _
      simp [findByName, hs, hmatch]
  | cons c2 rest ih =>
      intro postL h
      obtain ⟨t, ht, hne⟩ := h c2 (by simp)
      simp only [List.cons_append, findByName, ht, hne, if_neg]
      exact ih postL (fun c3 hc3 => h c3 (by simp [hc3]))

theorem truthy_of_getProp_jstr (v : JsValue) (k : String) (s : String)
    (h : getProp v k = .jstr s) : truthy v = true := by
  cases v <;> simp [getProp] at h <;> simp [truthy]

theorem findByName_some_name (lowered : String) :
    ∀ (cols : List JsValue) (col : JsValue),
      findByName lowered cols = .ok (some col) →
      ∃ s, getProp col "name" = .jstr s := by
  intro cols
  induction cols with
  | nil =>
      intro col h
      simp [findByName] at h
  | cons c2 rest ih =>
      intro col h
      rcases hg : getProp c2 "name" with _ | _ | b | n | _ | t | ⟨es, ps⟩ | fs <;>
        rw [findByName, hg] at h <;> try simp at h
      by_cases he : asciiLower t = lowered
      · rw [if_pos he] at h
        simp at h
        exact ⟨t, h ▸ hg⟩
      · rw [if_neg he] at h
        exact ih col h

theorem describeCollection_ok_truthy (pf : Platform) (tr : Transport) (c : Client)
    (w : World) (name : String) (ex : JsValue) (c2 : Client) (w2 : World)
    (h : describeCollection pf tr c w name = (.ok ex, c2, w2)) : truthy ex = true := by
  unfold describeCollection at h
  rcases hcol : collections pf tr c w with ⟨res, c3, w3⟩
  rw [hcol] at h
  cases res with
  | error e => simp at h
  | ok listings =>
      have h2 : (match findByName (asciiLower name) listings with
          | Except.error e => ((Except.error e : Except JsError JsValue), c3, w3)
          | Except.ok (some found) => (Except.ok found, c3, w3)
          | Except.ok none => (Except.error (notFoundError name), c3, w3)) =
          ((Except.ok ex : Except JsError JsValue), c2, w2) := h
      rcases hf : findByName (asciiLower name) listings with e2 | oc
      · rw [hf] at h2
        simp at h2
      · rw [hf] at h2
        cases oc with
        | none => simp at h2
        | some found =>
            simp at h2
            obtain ⟨s, hs⟩ := findByName_some_name (asciiLower name) listings found hf
            have := truthy_of_getProp_jstr found "name" s hs
            rw [← h2.1]
            exact this

/-- C7: when the create-collection POST inside ensureCollection comes back
with HTTP 409 (a TinyDBError with that status), the resolver issues a PUT
carrying the serialized schema against the existing collection and returns
its parsed descriptor — with no lookup — whenever a truthy schema string
was supplied; without a schema it resolves through the collection listing:
the first case-insensitive name match is returned, and a listing with no
match fails with the 404 collection_not_found error; any non-conflict
failure of the create propagates unchanged. -/
theorem ensureCollection_conflict_resolution (pf : Platform) (tr : Transport)
    (c : Client) (w : World) (input : EnsureCollectionInput) :
    (∀ r, tr w.calls.length (builtUrl c.cfg (createOpts c.cfg pf input))
        (builtInit pf c.cfg (createOpts c.cfg pf input)) = .resp r →
      r.ok = false → r.status ≠ 409 →
      ensureCollection pf tr c w input =
        (.error (parseError pf r), c,
         ⟨w.calls ++ [reqCall pf c.cfg (createOpts c.cfg pf input)]⟩)) ∧
    (∀ r s, tr w.calls.length (builtUrl c.cfg (createOpts c.cfg pf input))
        (builtInit pf c.cfg (createOpts c.cfg pf input)) = .resp r →
      r.status = 409 →
      stringifySchema pf input.schema = some s → s ≠ "" →
      ensureCollection pf tr c w input =
        (match requestInternal pf tr c
            ⟨w.calls ++ [reqCall pf c.cfg (createOpts c.cfg pf input)]⟩
            (updateOpts pf input.name s) with
         | (.ok upd, c2, w2) => (.ok (parseCollection pf upd), c2, w2)
         | (.error e2, c2, w2) => (.error e2, c2, w2))) ∧
    (∀ r, tr w.calls.length (builtUrl c.cfg (createOpts c.cfg pf input))
        (builtInit pf c.cfg (createOpts c.cfg pf input)) = .resp r →
      r.status = 409 → input.schema = none →
      ensureCollection pf tr c w input =
        (match describeCollection pf tr c
            ⟨w.calls ++ [reqCall pf c.cfg (createOpts c.cfg pf input)]⟩ input.name with
         | (.ok ex, c2, w2) => (.ok ex, c2, w2)
         | (.error e2, c2, w2) => (.error e2, c2, w2))) ∧
    (∀ e, tr w.calls.length (builtUrl c.cfg (createOpts c.cfg pf input))
        (builtInit pf c.cfg (createOpts c.cfg pf input)) = .netErr e →
      is409 e = false →
      ensureCollection pf tr c w input =
        (.error e, c,
         ⟨w.calls ++ [reqCall pf c.cfg (createOpts c.cfg pf input)]⟩)) ∧
    (∀ (c3 : Client) (w3 : World) (name : String) (payload : JsValue) (c4 : Client)
        (w4 : World) (items : List JsValue),
      requestInternal pf tr c3 w3 listOpts = (.ok payload, c4, w4) →
      asArrayElems payload = some items →
      ((∀ col ∈ items.map (parseCollection pf),
          ∃ s, getProp col "name" = .jstr s ∧ asciiLower s ≠ asciiLower name) →
        describeCollection pf tr c3 w3 name = (.error (notFoundError name), c4, w4)) ∧
      (∀ preL col postL, items.map (parseCollection pf) = preL ++ col :: postL →
        (∀ col2 ∈ preL,
          ∃ t, getProp col2 "name" = .jstr t ∧ asciiLower t ≠ asciiLower name) →
        (∃ s, getProp col "name" = .jstr s ∧ asciiLower s = asciiLower name) →
        describeCollection pf tr c3 w3 name = (.ok col, c4, w4))) := by
  have hnoq : (createOpts c.cfg pf input).allowOfflineQueue = false := rfl
  refine ⟨?_, ?_, ?_, ?_, ?_⟩
  · intro r hresp hok h409
    have hreq := requestInternal_resp_fail pf tr c w (createOpts c.cfg pf input) r hresp
      hok (guard_false_of_noqueue c (createOpts c.cfg pf input) _ hnoq)
    have h9 : is409 (parseError pf r) = false := by
      rw [is409_parseError]
      simp [h409]
    unfold ensureCollection
    rw [hreq]
    simp [h9]
  · intro r s hresp h409 hschema hs
    have hok : r.ok = false := by
      simp [HttpResponse.ok, h409]
    have hreq := requestInternal_resp_fail pf tr c w (createOpts c.cfg pf input) r hresp
      hok (guard_false_of_noqueue c (createOpts c.cfg pf input) _ hnoq)
    have h9 : is409 (parseError pf r) = true := by
      rw [is409_parseError]
      simp [h409]
    unfold ensureCollection
    rw [hreq]
    simp only [h9, if_true, hschema, hs, ne_eq, not_false_eq_true, if_pos]
  · intro r hresp h409 hnone
    have hok : r.ok = false := by
      simp [HttpResponse.ok, h409]
    have hreq := requestInternal_resp_fail pf tr c w (createOpts c.cfg pf input) r hresp
      hok (guard_false_of_noqueue c (createOpts c.cfg pf input) _ hnoq)
    have h9 : is409 (parseError pf r) = true := by
      rw [is409_parseError]
      simp [h409]
    unfold ensureCollection
    rw [hreq]
    simp only [h9, if_true, hnone, stringifySchema]
    unfold ensureFallback
    rcases hdesc : describeCollection pf tr c
        ⟨w.calls ++ [reqCall pf c.cfg (createOpts c.cfg pf input)]⟩ input.name
      with ⟨res, c2, w2⟩
    cases res with
    | ok ex =>
        have ht := describeCollection_ok_truthy pf tr c _ input.name ex c2 w2 hdesc
        simp [ht]
    | error e2 => simp
  · intro e hnet h9
    have hreq := requestInternal_netErr_fail pf tr c w (createOpts c.cfg pf input) e hnet
      (guard_false_of_noqueue c (createOpts c.cfg pf input) _ hnoq)
    unfold ensureCollection
    rw [hreq]
    simp [h9]
  · intro c3 w3 name payload c4 w4 items hreq hitems
    have hcolls : collections pf tr c3 w3 = (.ok (items.map (parseCollection pf)), c4, w4) := by
      unfold collections
      rw [hreq]
      show (match asArrayElems payload with
            | some its =>
                ((Except.ok (List.map (parseCollection pf) its) :
                    Except JsError (List JsValue)), c4, w4)
            | none =>
                (Except.error (JsError.typeError "payload.map is not a function"),
                 c4, w4)) = _
      rw [hitems]
    constructor
    · intro hnone
      have hf := findByName_none_of (asciiLower name) (items.map (parseCollection pf)) hnone
      unfold describeCollection
      rw [hcolls]
      show (match findByName (asciiLower name) (items.map (parseCollection pf)) with
            | Except.error e => ((Except.error e : Except JsError JsValue), c4, w4)
            | Except.ok (some found) => (Except.ok found, c4, w4)
            | Except.ok none => (Except.error (notFoundError name), c4, w4)) = _
      rw [hf]
    · intro preL col postL hsplit hpre hcol
      obtain ⟨s, hs, hmatch⟩ := hcol
      have hf := findByName_first (asciiLower name) col s hs hmatch preL postL hpre
      unfold describeCollection
      rw [hcolls]
      show (match findByName (asciiLower name) (items.map (parseCollection pf)) with
            | Except.error e => ((Except.error e : Except JsError JsValue), c4, w4)
            | Except.ok (some found) => (Except.ok found, c4, w4)
            | Except.ok none => (Except.error (notFoundError name), c4, w4)) = _
      rw [hsplit, hf]

theorem flush_empty_queue_noop :
    flushOfflineQueue pfPlain trDown cOffline w0 = (.ok (), cOffline, w0) := rfl

theorem flush_failure_keeps_whole_queue :
    flushOfflineQueue pfPlain trDown
      ⟨⟨"https://api.test/", "key", none, true⟩,
       [⟨"u1", ⟨"POST", [], none⟩, .jsonCodec⟩,
        ⟨"u2", ⟨"POST", [], none⟩, .jsonCodec⟩]⟩ w0 =
      (.error (.typeError "Failed to fetch"),
       ⟨⟨"https://api.test/", "key", none, true⟩,
        [⟨"u1", ⟨"POST", [], none⟩, .jsonCodec⟩,
         ⟨"u2", ⟨"POST", [], none⟩, .jsonCodec⟩]⟩,
       ⟨[("u1", ⟨"POST", [], none⟩)]⟩) := rfl

theorem flush_success_drains_in_order :
    flushOfflineQueue pfPlain (fun _ _ _ => .resp ⟨204, "No Content", ""⟩)
      ⟨⟨"https://api.test/", "key", none, true⟩,
       [⟨"u1", ⟨"POST", [], none⟩, .jsonCodec⟩,
        ⟨"u2", ⟨"POST", [], none⟩, .jsonCodec⟩]⟩ w0 =
      (.ok (),
       ⟨⟨"https://api.test/", "key", none, true⟩, []⟩,
       ⟨[("u1", ⟨"POST", [], none⟩), ("u2", ⟨"POST", [], none⟩)]⟩) := rfl

theorem create_empty_batch_is_pure :
    createBatch pfPlain trDown "users" [] cOnline w0 = (.ok [], cOnline, w0) := rfl

theorem collection_blank_name_rejected :
    collectionMethod w0 "   " =
      (.error (.genericError "collection name is required"), w0) := rfl

theorem collection_name_gets_trimmed :
    collectionMethod w0 " users " = (.ok { name := "users" }, w0) := rfl

end TinySdk
